import Mathlib

/-!
Verification of the `go-weather-forecast` core (src/main.go): the
coordinate cache-aside resolver (`getLatLong`, `fetchLatLong`,
`insertCity`) and the forecast transformation pipeline
(`extractWeatherData`), shallowly embedded in Lean 4.

External effects (the persistent store, the two HTTP services) are
modelled as explicit outcome parameters: the embedding of each function
branches on those outcomes exactly as the Go source branches on the
returned errors, and records in a trace which collaborators were
invoked.  Go `float64` values are modelled by the exact rational value
of the IEEE-754 binary64 datum, with the round-to-nearest-even
quantisation made explicit.
-/

namespace WeatherApp

/-- `LatLong` from src/main.go: a latitude/longitude pair.  The Go
fields are `float64`; they are carried here as exact rationals. -/
structure LatLong where
  latitude : ℚ
  longitude : ℚ
  deriving DecidableEq, Repr

/-- Outcome of the geocoding HTTP exchange in `fetchLatLong`
(src/main.go lines 74-93): the `http.Get` call can fail, the JSON
decode of the body can fail, or a decoded `GeoResponse` with its
`results` list is obtained. -/
inductive GeoHttp where
  | requestFailed
  | decodeFailed
  | ok (results : List LatLong)
  deriving DecidableEq, Repr

/-- The distinct error values the embedded resolver can surface,
one per `return nil, err` site of src/main.go.  `storeReadError`
is the `StoreReadError` of the spec taxonomy; the source has no code
path producing it (store-read failures are swallowed as cache
misses), and the embedding keeps the constructor only so that
this absence is statable. -/
inductive GoErr where
  | geoRequestError
  | geoDecodeError
  | noResultsFound
  | insertError
  | storeReadError
  deriving DecidableEq, Repr

/-- `fetchLatLong` from src/main.go lines 74-93, as a function of the
HTTP outcome: propagate a request error, propagate a decode error,
fail with `errors.New("no results found")` when `len(response.Results) < 1`,
otherwise return `&response.Results[0]`. -/
def fetchLatLong : GeoHttp → Except GoErr LatLong
  | .requestFailed => .error .geoRequestError
  | .decodeFailed => .error .geoDecodeError
  | .ok results =>
    match results with
    | [] => .error .noResultsFound
    | first :: _ => .ok first

/-- Outcome of `db.Get` in `getLatLong` (src/main.go line 97): a row
is found, or the query fails.  `sqlx` reports row-not-found and
transport/driver failures alike through a non-nil error; the two
failure constructors are kept distinct so that the uniform treatment
the source gives them is statable. -/
inductive DbGet where
  | found (c : LatLong)
  | errNoRows
  | errTransport
  deriving DecidableEq, Repr

/-- `DbGet.failed g` holds when the store query did not return a row. -/
def DbGet.failed : DbGet → Prop
  | .found _ => False
  | .errNoRows => True
  | .errTransport => True

instance : DecidablePred DbGet.failed := fun g => by
  cases g <;> simp [DbGet.failed] <;> infer_instance

/-- Outcome of the `db.Exec` insert in `insertCity`
(src/main.go lines 131-134). -/
inductive DbExec where
  | ok
  | failed
  deriving DecidableEq, Repr

/-- `insertCity` from src/main.go lines 131-134: return the error of
the `INSERT INTO cities` statement, nil on success. -/
def insertCity : DbExec → Except GoErr Unit
  | .ok => .ok ()
  | .failed => .error .insertError

/-- Which external collaborators a `getLatLong` run invoked:
whether `fetchLatLong` (the geocoder) was called, and whether
`insertCity` (the store write) was executed. -/
structure ResolveTrace where
  geoCalled : Bool
  insertCalled : Bool
  deriving DecidableEq, Repr

/-- `getLatLong` from src/main.go lines 95-113, with the outcomes of
the store read, the geocoder exchange and the store write as
parameters, returning the result together with the invocation trace:
if `db.Get` returned no error, return the coordinate of the row at once;
otherwise call `fetchLatLong` and propagate its error; otherwise call
`insertCity` and propagate its error; otherwise return the fetched
coordinate. -/
def getLatLong (g : DbGet) (geo : GeoHttp) (ins : DbExec) :
    Except GoErr LatLong × ResolveTrace :=
  match g with
  | .found c => (.ok c, ⟨false, false⟩)
  | .errNoRows | .errTransport =>
    match fetchLatLong geo with
    | .error e => (.error e, ⟨true, false⟩)
    | .ok c =>
      match insertCity ins with
      | .error e => (.error e, ⟨true, true⟩)
      | .ok _ => (.ok c, ⟨true, true⟩)

/-- A wall-clock instant as `time.Parse` with layout
`"2006-01-02T15:04"` produces it: year (four digits), month, day,
hour, minute. -/
structure GoTime where
  year : ℕ
  month : ℕ
  day : ℕ
  hour : ℕ
  minute : ℕ
  deriving DecidableEq, Repr

/-- The numeric value of a decimal digit character, `none` on any
other character. -/
def digitVal? (c : Char) : Option ℕ :=
  if c.isDigit then some (c.toNat - 48) else none

/-- Read exactly four decimal digits (the Go layout verb `2006`,
which demands a digit in each of the first four positions). -/
def parseNum4 : List Char → Option (ℕ × List Char)
  | c1 :: c2 :: c3 :: c4 :: rest => do
    let d1 ← digitVal? c1
    let d2 ← digitVal? c2
    let d3 ← digitVal? c3
    let d4 ← digitVal? c4
    pure (1000 * d1 + 100 * d2 + 10 * d3 + d4, rest)
  | _ => none

/-- Read exactly two decimal digits (Go `getnum` with `fixed = true`,
used for the zero-padded layout verbs `01`, `02`, `04`). -/
def parseNum2 : List Char → Option (ℕ × List Char)
  | c1 :: c2 :: rest => do
    let d1 ← digitVal? c1
    let d2 ← digitVal? c2
    pure (10 * d1 + d2, rest)
  | _ => none

/-- Read one or two decimal digits (Go `getnum` with `fixed = false`,
used for the hour verb `15`): a second digit is consumed only when
present. -/
def parseNum1or2 : List Char → Option (ℕ × List Char)
  | [] => none
  | c1 :: rest =>
    match digitVal? c1 with
    | none => none
    | some d1 =>
      match rest with
      | [] => some (d1, [])
      | c2 :: rest2 =>
        match digitVal? c2 with
        | none => some (d1, c2 :: rest2)
        | some d2 => some (10 * d1 + d2, rest2)

/-- Consume one expected literal character of the layout. -/
def expectChar (c : Char) : List Char → Option (List Char)
  | [] => none
  | c1 :: rest => if c1 = c then some rest else none

/-- Gregorian leap-year test as Go `isLeap` computes it. -/
def isLeapYear (y : ℕ) : Bool :=
  y % 4 = 0 && (y % 100 ≠ 0 || y % 400 = 0)

/-- Days in a month as Go `daysIn` computes it (February depends on
the year; out-of-range months never reach this in validated data). -/
def daysInMonth (y m : ℕ) : ℕ :=
  if m = 2 then (if isLeapYear y then 29 else 28)
  else if m = 4 ∨ m = 6 ∨ m = 9 ∨ m = 11 then 30
  else 31

/-- Go `time.Parse("2006-01-02T15:04", s)` (src/main.go line 58) as a
total function returning `none` exactly when Go returns a parse
error: four year digits, literal `-`, two month digits, literal `-`,
two day digits, literal `T`, one or two hour digits, literal `:`,
two minute digits, end of input; then the range checks Go applies
(hour below 24, minute below 60, month 1..12, day 1..days-in-month). -/
def parseTime2006 (s : String) : Option GoTime := do
  let (year, cs) ← parseNum4 s.data
  let cs ← expectChar (Char.ofNat 45) cs
  let (month, cs) ← parseNum2 cs
  let cs ← expectChar (Char.ofNat 45) cs
  let (day, cs) ← parseNum2 cs
  let cs ← expectChar (Char.ofNat 84) cs
  let (hour, cs) ← parseNum1or2 cs
  let cs ← expectChar (Char.ofNat 58) cs
  let (minute, cs) ← parseNum2 cs
  guard cs.isEmpty
  guard (hour < 24)
  guard (minute < 60)
  guard (1 ≤ month ∧ month ≤ 12)
  guard (1 ≤ day ∧ day ≤ daysInMonth year month)
  pure ⟨year, month, day, hour, minute⟩

/-- Days between a Gregorian civil date and 1970-01-01, by the
standard era decomposition; this is the day count underlying the Go
weekday computation. -/
def daysFromCivil (y m d : ℤ) : ℤ :=
  let yAdj := if m ≤ 2 then y - 1 else y
  let era := yAdj.fdiv 400
  let yoe := yAdj - era * 400
  let mp := (m + 9).emod 12
  let doy := (153 * mp + 2) / 5 + d - 1
  let doe := yoe * 365 + yoe / 4 - yoe / 100 + doy
  era * 146097 + doe - 719468

/-- The abbreviated weekday name the Go `Mon` layout verb prints for
a date: index days-since-epoch plus four (1970-01-01 was a Thursday)
into the week, Sunday first. -/
def weekdayAbbrev (t : GoTime) : String :=
  let idx := ((daysFromCivil t.year t.month t.day + 4).emod 7).toNat
  List.getD ["Sun", "Mon", "Tue", "Wed", "Thu", "Fri", "Sat"] idx "Sun"

/-- Zero-pad a value below 100 to two digits, as the layout verbs
`15` and `04` print hour and minute. -/
def pad2 (n : ℕ) : String :=
  if n < 10 then "0" ++ toString n else toString n

/-- Go `date.Format("Mon 15:04")` (src/main.go line 63). -/
def formatMonHM (t : GoTime) : String :=
  weekdayAbbrev t ++ " " ++ pad2 t.hour ++ ":" ++ pad2 t.minute

/-- Round a rational to the nearest integer, ties to the even
integer — the rounding both of IEEE-754 binary64 arithmetic and of
the fixed-precision decimal conversion in Go `strconv`. -/
def roundHalfEven (q : ℚ) : ℤ :=
  let f := ⌊q⌋
  let r := q - f
  if r < 1 / 2 then f
  else if 1 / 2 < r then f + 1
  else if f % 2 = 0 then f else f + 1

/-- Fuel-bounded search, for `1 ≤ a`, of the exponent `e ≥ 0` with
`2 ^ e ≤ a < 2 ^ (e + 1)`. -/
def ilog2Up : ℕ → ℚ → ℤ → ℤ
  | 0, _, e => e
  | fuel + 1, a, e => if a < 2 then e else ilog2Up fuel (a / 2) (e + 1)

/-- Fuel-bounded search, for `0 < a < 1`, of the exponent `e < 0`
with `2 ^ e ≤ a < 2 ^ (e + 1)`. -/
def ilog2Down : ℕ → ℚ → ℤ → ℤ
  | 0, _, e => e
  | fuel + 1, a, e => if 1 ≤ a then e else ilog2Down fuel (a * 2) (e - 1)

/-- The binary exponent of a positive rational: the `e` with
`2 ^ e ≤ a < 2 ^ (e + 1)`.  The fuel covers the whole binary64
range. -/
def ilog2 (a : ℚ) : ℤ :=
  if 1 ≤ a then ilog2Up 1200 a 0 else ilog2Down 1200 a 0

/-- Multiply a rational by `2 ^ k` for a signed exponent `k`. -/
def scaleBin (q : ℚ) (k : ℤ) : ℚ :=
  match k with
  | .ofNat n => q * ((2 ^ n : ℕ) : ℚ)
  | .negSucc n => q / ((2 ^ (n + 1) : ℕ) : ℚ)

/-- The IEEE-754 binary64 value nearest a rational (round to
nearest, ties to even), as an exact rational: the magnitude scaled
to 52 fractional bits, rounded to an integer mantissa, and scaled
back.  This models the quantisation a JSON number undergoes when
`json.Unmarshal` stores it in a Go `float64` field.  Stated for the
normal range, which covers every quantity this program handles;
overflow and subnormal rounding are not modelled. -/
def toFloat64 (q : ℚ) : ℚ :=
  if q = 0 then 0
  else
    let a := if q < 0 then -q else q
    let e := ilog2 a
    let m := roundHalfEven (scaleBin a (52 - e))
    let r := scaleBin (m : ℚ) (e - 52)
    if q < 0 then -r else r

/-- Go `fmt.Sprintf("%.1f", x)` for a nonnegative `x`: the decimal
value correctly rounded to one fractional digit; an exact tie rounds
to the even digit, as in the fixed-precision conversion of
`strconv`. -/
def fmtF1Nonneg (q : ℚ) : String :=
  let n := (roundHalfEven (q * 10)).toNat
  toString (n / 10) ++ "." ++ toString (n % 10)

/-- Go `fmt.Sprintf("%.1f", x)`: sign, then the rounded magnitude. -/
def fmtF1 (q : ℚ) : String :=
  if q < 0 then "-" ++ fmtF1Nonneg (-q) else fmtF1Nonneg q

/-- Go `fmt.Sprintf("%.1f°C", w.Hourly.Temperature2m[i])`
(src/main.go line 64), applied to the `float64` decoded from the
JSON temperature value `q`. -/
def goFmtTemp (q : ℚ) : String :=
  fmtF1 (toFloat64 q) ++ "°C"

/-- The `hourly` object of `WeatherResponse` (src/main.go lines
34-37): the parallel arrays of time strings and temperatures. -/
structure Hourly where
  time : List String
  temperature2m : List ℚ
  deriving DecidableEq, Repr

/-- `WeatherResponse` from src/main.go lines 30-38, the decoded
forecast body. -/
structure WeatherResponse where
  latitude : ℚ
  longitude : ℚ
  timezone : String
  hourly : Hourly
  deriving DecidableEq, Repr

/-- `Forecast` from src/main.go lines 45-48: one display row. -/
structure Forecast where
  date : String
  temperature : String
  deriving DecidableEq, Repr

/-- `WeatherDisplay` from src/main.go lines 40-43. -/
structure WeatherDisplay where
  city : String
  forecasts : List Forecast
  deriving DecidableEq, Repr

/-- Outcome of `json.Unmarshal` on the raw weather body
(src/main.go line 52): either the body does not decode, or it
decodes to a `WeatherResponse`. -/
inductive RawBody where
  | invalid
  | parsed (w : WeatherResponse)
  deriving DecidableEq, Repr

/-- Ways `extractWeatherData` can abort: the JSON decode fails
(line 53, `MalformedResponse` in the spec taxonomy), a time string
fails `time.Parse` (line 60, `TimeParseError`), or the access
`Temperature2m[i]` is out of range — a Go runtime panic, modelled as
a distinguished outcome. -/
inductive TransformErr where
  | malformedResponse
  | timeParseError
  | indexOutOfRange
  deriving DecidableEq, Repr

/-- Decidable equality for `Except`, so that concrete runs of the
embedded fallible functions can be checked by evaluation. -/
instance exceptDecEq {ε α : Type} [DecidableEq ε] [DecidableEq α] :
    DecidableEq (Except ε α) := fun a b =>
  match a, b with
  | .error e, .error f =>
    if h : e = f then isTrue (by rw [h])
    else isFalse (fun hh => absurd (by injection hh) h)
  | .ok x, .ok y =>
    if h : x = y then isTrue (by rw [h])
    else isFalse (fun hh => absurd (by injection hh) h)
  | .error _, .ok _ => isFalse (fun hh => Except.noConfusion hh)
  | .ok _, .error _ => isFalse (fun hh => Except.noConfusion hh)

/-- The loop of `extractWeatherData` (src/main.go lines 57-67):
walk the time strings with their index `i`; parse each string with
layout `"2006-01-02T15:04"`, aborting with the parse error; then
read `Temperature2m[i]` — out of range is the panic outcome — and
append the formatted forecast. -/
def buildForecasts (temps : List ℚ) :
    List String → ℕ → Except TransformErr (List Forecast)
  | [], _ => .ok []
  | t :: ts, i =>
    match parseTime2006 t with
    | none => .error .timeParseError
    | some date =>
      match temps[i]? with
      | none => .error .indexOutOfRange
      | some temp =>
        match buildForecasts temps ts (i + 1) with
        | .error e => .error e
        | .ok rest =>
          .ok ({ date := formatMonHM date, temperature := goFmtTemp temp } :: rest)

/-- `extractWeatherData` from src/main.go lines 50-72, as a function
of the city name and the decode outcome of the raw body: a decode
failure is returned as the malformed-response error; otherwise the
forecasts are built from the hourly arrays and wrapped in a
`WeatherDisplay` carrying the city argument. -/
def extractWeatherData (city : String) (raw : RawBody) :
    Except TransformErr WeatherDisplay :=
  match raw with
  | .invalid => .error .malformedResponse
  | .parsed w =>
    match buildForecasts w.hourly.temperature2m w.hourly.time 0 with
    | .error e => .error e
    | .ok forecasts => .ok { city := city, forecasts := forecasts }

/-- The forecast row built from one time string and its temperature,
when the time string parses: the display form every successful entry
of `extractWeatherData` takes. -/
def forecastOfPair (p : String × ℚ) : Forecast :=
  { date := formatMonHM ((parseTime2006 p.1).getD ⟨0, 0, 0, 0, 0⟩),
    temperature := goFmtTemp p.2 }

end WeatherApp

namespace WeatherApp

/-- C4: on a store hit with coordinate `c`, `getLatLong` returns `c`,
the geocoder is not invoked and no store write is performed, whatever
the (unconsulted) outcomes of those collaborators would have been. -/
theorem getLatLong_cache_hit (c : LatLong) (geo : GeoHttp) (ins : DbExec) :
    getLatLong (.found c) geo ins = (.ok c, ⟨false, false⟩) := rfl

/-- C5: on a store miss, a geocoder response whose result list is
non-empty, and a failing write-back insert, `getLatLong` surfaces the
insert failure, returns no coordinate, and both collaborators were
invoked. -/
theorem getLatLong_insert_failure_fatal (g : DbGet) (hg : g.failed)
    (first : LatLong) (rest : List LatLong) :
    getLatLong g (.ok (first :: rest)) .failed =
      (.error .insertError, ⟨true, true⟩) := by
  cases g with
  | found c => exact absurd hg (by simp [DbGet.failed])
  | errNoRows => rfl
  | errTransport => rfl

theorem getLatLong_insert_failure_fatal_witness :
    DbGet.failed .errNoRows ∧
      getLatLong .errNoRows (.ok [⟨(4885660 : ℚ)/100000, (23522 : ℚ)/10000⟩]) .failed =
        (.error .insertError, ⟨true, true⟩) :=
  ⟨trivial,
    getLatLong_insert_failure_fatal .errNoRows trivial
      ⟨(4885660 : ℚ)/100000, (23522 : ℚ)/10000⟩ []⟩

/-- C6: on a store miss with the geocoder returning zero results,
`getLatLong` fails with the "no results found" error and performs no
store write. -/
theorem getLatLong_empty_geocode (g : DbGet) (hg : g.failed) (ins : DbExec) :
    getLatLong g (.ok []) ins = (.error .noResultsFound, ⟨true, false⟩) := by
  cases g with
  | found c => exact absurd hg (by simp [DbGet.failed])
  | errNoRows => rfl
  | errTransport => rfl

theorem getLatLong_empty_geocode_witness :
    DbGet.failed .errTransport ∧
      getLatLong .errTransport (.ok []) .ok =
        (.error .noResultsFound, ⟨true, false⟩) :=
  ⟨trivial, getLatLong_empty_geocode .errTransport trivial .ok⟩

/-- C8: every failure of the store query — row-not-found or a
transport/driver error — is treated identically, as a cache miss: the
run proceeds to the geocoder, and no store-read error is ever
propagated to the caller. -/
theorem getLatLong_store_failure_is_miss (geo : GeoHttp) (ins : DbExec) :
    getLatLong .errNoRows geo ins = getLatLong .errTransport geo ins ∧
      (getLatLong .errNoRows geo ins).2.geoCalled = true ∧
      ∀ g : DbGet, (getLatLong g geo ins).1 ≠ .error .storeReadError := by
  refine ⟨rfl, ?_, ?_⟩
  · cases geo with
    | requestFailed => rfl
    | decodeFailed => rfl
    | ok results => cases results with
      | nil => rfl
      | cons first rest => cases ins <;> rfl
  · intro g
    rcases g with c | _ | _ <;> rcases geo with _ | _ | (_ | ⟨first, rest⟩) <;>
      rcases ins with _ | _ <;>
      simp [getLatLong, fetchLatLong, insertCity]

/-- Pairing a list with the truncation of a partner to the length of
the first list gives the same pairing as with the whole partner. -/
theorem zip_take_self {α β : Type} :
    ∀ (ts : List α) (xs : List β), ts.zip (xs.take ts.length) = ts.zip xs
  | [], _ => by simp
  | _ :: _, [] => by simp
  | t :: ts, x :: xs => by
    simp [zip_take_self ts xs]

/-- Unfolding equation of `buildForecasts` on an empty batch. -/
theorem buildForecasts_nil (temps : List ℚ) (i : ℕ) :
    buildForecasts temps [] i = .ok [] := rfl

/-- Unfolding equation of `buildForecasts` on a non-empty batch. -/
theorem buildForecasts_cons (temps : List ℚ) (t : String) (ts : List String) (i : ℕ) :
    buildForecasts temps (t :: ts) i =
      match parseTime2006 t with
      | none => .error .timeParseError
      | some date =>
        match temps[i]? with
        | none => .error .indexOutOfRange
        | some temp =>
          match buildForecasts temps ts (i + 1) with
          | .error e => .error e
          | .ok rest =>
            .ok ({ date := formatMonHM date, temperature := goFmtTemp temp } :: rest) := rfl

/-- When every time string of the batch parses and the temperature
array reaches past the batch, the loop of `extractWeatherData`
succeeds with the in-order pairing of the two arrays. -/
theorem buildForecasts_eq_of_parses (temps : List ℚ) (ts : List String) :
    ∀ i : ℕ, i + ts.length ≤ temps.length →
      (∀ t ∈ ts, (parseTime2006 t).isSome) →
      buildForecasts temps ts i =
        .ok ((ts.zip (temps.drop i)).map forecastOfPair) := by
  induction ts with
  | nil => intro i _ _; simp [buildForecasts_nil]
  | cons t ts ih =>
    intro i hlen hparse
    have hi : i < temps.length := by simp at hlen; omega
    obtain ⟨d, hd⟩ := Option.isSome_iff_exists.mp (hparse t (by simp))
    have hrec := ih (i + 1) (by simp at hlen ⊢; omega)
      (fun u hu => hparse u (List.mem_cons_of_mem _ hu))
    have hdrop := List.drop_eq_getElem_cons hi
    rw [buildForecasts_cons, hd, List.getElem?_eq_getElem hi, hrec, hdrop,
      List.zip_cons_cons, List.map_cons]
    simp [forecastOfPair, hd]

/-- When some time string of the batch fails to parse and the
temperature array reaches past the batch, the loop of
`extractWeatherData` aborts with the time-parse error. -/
theorem buildForecasts_error_of_unparseable (temps : List ℚ) (ts : List String) :
    ∀ i : ℕ, i + ts.length ≤ temps.length →
      (∃ t ∈ ts, parseTime2006 t = none) →
      buildForecasts temps ts i = .error .timeParseError := by
  induction ts with
  | nil => intro i _ hbad; simp at hbad
  | cons t ts ih =>
    intro i hlen hbad
    cases hpt : parseTime2006 t with
    | none => simp [buildForecasts_cons, hpt]
    | some d =>
      have hi : i < temps.length := by simp at hlen; omega
      have hbad2 : ∃ u ∈ ts, parseTime2006 u = none := by
        rcases hbad with ⟨u, hu, hun⟩
        rcases List.mem_cons.mp hu with rfl | hu2
        · rw [hun] at hpt; cases hpt
        · exact ⟨u, hu2, hun⟩
      have hrec := ih (i + 1) (by simp at hlen ⊢; omega) hbad2
      simp [buildForecasts_cons, hpt, List.getElem?_eq_getElem hi, hrec]

/-- C1: on a decoded body whose hourly arrays have equal length `N`
and all of whose time strings parse under the expected layout,
`extractWeatherData` succeeds, and its forecast sequence is exactly
the in-order pairing of the two arrays rendered entry by entry — `N`
entries, the i-th built from the i-th time string and the i-th
temperature. -/
theorem extractWeatherData_parallel_arrays (city : String) (w : WeatherResponse)
    (hlen : w.hourly.temperature2m.length = w.hourly.time.length)
    (hparse : ∀ t ∈ w.hourly.time, (parseTime2006 t).isSome) :
    extractWeatherData city (.parsed w) =
      .ok { city := city,
            forecasts :=
              (w.hourly.time.zip w.hourly.temperature2m).map forecastOfPair } ∧
      ((w.hourly.time.zip w.hourly.temperature2m).map forecastOfPair).length =
        w.hourly.time.length := by
  have hb := buildForecasts_eq_of_parses w.hourly.temperature2m w.hourly.time 0
    (by omega) hparse
  constructor
  · simp [extractWeatherData, hb]
  · simp [hlen]

theorem extractWeatherData_parallel_arrays_witness :
    extractWeatherData "Berlin"
        (.parsed ⟨52.52, 13.405, "CET",
          ⟨["2024-03-11T14:00", "2024-03-12T15:30"], [18.45, 7.05]⟩⟩) =
      .ok { city := "Berlin",
            forecasts :=
              ((["2024-03-11T14:00", "2024-03-12T15:30"].zip
                [(18.45 : ℚ), 7.05]).map forecastOfPair) } ∧
      ((["2024-03-11T14:00", "2024-03-12T15:30"].zip
        [(18.45 : ℚ), 7.05]).map forecastOfPair).length =
        (["2024-03-11T14:00", "2024-03-12T15:30"] : List String).length :=
  extractWeatherData_parallel_arrays "Berlin"
    ⟨52.52, 13.405, "CET", ⟨["2024-03-11T14:00", "2024-03-12T15:30"], [18.45, 7.05]⟩⟩
    (by decide) (by decide)

/-- C9: on a decoded body whose temperature array is at least as long
as its time array, with every time string parsing,
`extractWeatherData` succeeds with exactly one forecast per time
entry; temperatures beyond the time-array length have no effect
(truncating them leaves the result unchanged), and an empty time
array yields a successful display with no forecasts rather than an
error. -/
theorem extractWeatherData_excess_temps (city : String) (w : WeatherResponse)
    (hlen : w.hourly.time.length ≤ w.hourly.temperature2m.length)
    (hparse : ∀ t ∈ w.hourly.time, (parseTime2006 t).isSome) :
    extractWeatherData city (.parsed w) =
      .ok { city := city,
            forecasts :=
              (w.hourly.time.zip w.hourly.temperature2m).map forecastOfPair } ∧
      ((w.hourly.time.zip w.hourly.temperature2m).map forecastOfPair).length =
        w.hourly.time.length ∧
      extractWeatherData city (.parsed
          { w with hourly := { w.hourly with temperature2m :=
              (w.hourly.temperature2m.take w.hourly.time.length) } }) =
        extractWeatherData city (.parsed w) ∧
      (w.hourly.time = [] →
        extractWeatherData city (.parsed w) = .ok { city := city, forecasts := [] }) := by
  have hb := buildForecasts_eq_of_parses w.hourly.temperature2m w.hourly.time 0
    (by omega) hparse
  have hmain : extractWeatherData city (.parsed w) =
      .ok { city := city,
            forecasts :=
              (w.hourly.time.zip w.hourly.temperature2m).map forecastOfPair } := by
    simp [extractWeatherData, hb]
  have htakelen : (w.hourly.temperature2m.take w.hourly.time.length).length =
      w.hourly.time.length := by
    simp [hlen]
  have hb2 := buildForecasts_eq_of_parses
    (w.hourly.temperature2m.take w.hourly.time.length) w.hourly.time 0
    (by omega) hparse
  refine ⟨hmain, by simp [hlen], ?_, ?_⟩
  · rw [hmain]
    simp [extractWeatherData, hb2, zip_take_self]
  · intro hnil
    rw [hmain, hnil]
    simp

theorem extractWeatherData_excess_temps_witness :
    extractWeatherData "Paris"
        (.parsed ⟨48.8566, 2.3522, "CET", ⟨["2024-03-11T14:00"], [18.45, 99]⟩⟩) =
      .ok { city := "Paris",
            forecasts :=
              ((["2024-03-11T14:00"].zip [(18.45 : ℚ), 99]).map forecastOfPair) } ∧
      ((["2024-03-11T14:00"].zip [(18.45 : ℚ), 99]).map forecastOfPair).length =
        (["2024-03-11T14:00"] : List String).length ∧
      extractWeatherData "Paris" (.parsed
          { (⟨48.8566, 2.3522, "CET", ⟨["2024-03-11T14:00"], [18.45, 99]⟩⟩ : WeatherResponse) with
            hourly := { (⟨["2024-03-11T14:00"], [18.45, 99]⟩ : Hourly) with temperature2m :=
              ([(18.45 : ℚ), 99].take (["2024-03-11T14:00"] : List String).length) } }) =
        extractWeatherData "Paris"
          (.parsed ⟨48.8566, 2.3522, "CET", ⟨["2024-03-11T14:00"], [18.45, 99]⟩⟩) ∧
      ((["2024-03-11T14:00"] : List String) = [] →
        extractWeatherData "Paris"
            (.parsed ⟨48.8566, 2.3522, "CET", ⟨["2024-03-11T14:00"], [18.45, 99]⟩⟩) =
          .ok { city := "Paris", forecasts := [] }) :=
  extractWeatherData_excess_temps "Paris"
    ⟨48.8566, 2.3522, "CET", ⟨["2024-03-11T14:00"], [18.45, 99]⟩⟩
    (by decide) (by decide)

/-- C10: a successful `extractWeatherData` carries the city argument
verbatim in the `City` field, and the latitude, longitude and
timezone fields of the body never influence the result: replacing
them arbitrarily leaves the same successful output. -/
theorem extractWeatherData_city_verbatim (city : String) (w : WeatherResponse)
    (disp : WeatherDisplay) (lat lon : ℚ) (tz : String)
    (hok : extractWeatherData city (.parsed w) = .ok disp) :
    disp.city = city ∧
      extractWeatherData city (.parsed ⟨lat, lon, tz, w.hourly⟩) = .ok disp := by
  have hsame : extractWeatherData city (.parsed ⟨lat, lon, tz, w.hourly⟩) =
      extractWeatherData city (.parsed w) := rfl
  refine ⟨?_, hsame.trans hok⟩
  have hm : extractWeatherData city (.parsed w) =
      match buildForecasts w.hourly.temperature2m w.hourly.time 0 with
      | .error e => .error e
      | .ok forecasts => .ok { city := city, forecasts := forecasts } := rfl
  rw [hm] at hok
  cases hb : buildForecasts w.hourly.temperature2m w.hourly.time 0 with
  | error e =>
    rw [hb] at hok
    exact Except.noConfusion hok
  | ok f =>
    rw [hb] at hok
    injection hok with h2
    rw [← h2]

theorem extractWeatherData_city_verbatim_witness :
    (⟨"Paris", []⟩ : WeatherDisplay).city = "Paris" ∧
      extractWeatherData "Paris" (.parsed ⟨7, 8, "X", (⟨0, 0, "GMT", ⟨[], []⟩⟩ : WeatherResponse).hourly⟩) =
        .ok ⟨"Paris", []⟩ :=
  extractWeatherData_city_verbatim "Paris" ⟨0, 0, "GMT", ⟨[], []⟩⟩ ⟨"Paris", []⟩
    7 8 "X" rfl

set_option maxRecDepth 4000 in
/-- C3 counterexample: on the sample input of the claim — time string
"2024-03-11T14:00" and temperature 18.45 — the code produces the
temperature label "18.4°C", not "18.5°C": the binary64 value nearest
18.45 lies strictly below 18.45, and the one-decimal conversion of Go
correctly rounds that stored value down. -/
theorem extractWeatherData_sample_counterexample :
    extractWeatherData "Paris"
        (.parsed ⟨48.8566, 2.3522, "GMT", ⟨["2024-03-11T14:00"], [18.45]⟩⟩) =
      .ok ⟨"Paris", [⟨"Mon 14:00", "18.4°C"⟩]⟩ ∧
      (⟨"Mon 14:00", "18.4°C"⟩ : Forecast) ≠ ⟨"Mon 14:00", "18.5°C"⟩ := by
  constructor
  · with_unfolding_all decide
  · decide

set_option maxRecDepth 4000 in
/-- C3 (amended): the sample time string "2024-03-11T14:00" (a
Monday) yields the label "Mon 14:00", and the sample temperature
18.45 yields the label "18.4°C": the stored float64 value of 18.45
is exactly 5193213320311603 / 2^48, strictly below 18.45, so the
one-decimal rendering rounds down. -/
theorem extractWeatherData_sample_formatting :
    extractWeatherData "Paris"
        (.parsed ⟨48.8566, 2.3522, "GMT", ⟨["2024-03-11T14:00"], [18.45]⟩⟩) =
      .ok ⟨"Paris", [⟨"Mon 14:00", "18.4°C"⟩]⟩ ∧
      (toFloat64 18.45).num = 5193213320311603 ∧
      (toFloat64 18.45).den = 281474976710656 ∧
      toFloat64 18.45 < 18.45 := by
  refine ⟨by with_unfolding_all decide, by with_unfolding_all decide,
    by with_unfolding_all decide, by with_unfolding_all decide⟩

set_option maxRecDepth 4000 in
/-- C2: at a decoded body whose temperature array (empty) is strictly
shorter than its time array, the code does not fail with the
malformed-response error the spec requires: the access
`Temperature2m[0]` is out of range, which in the Go program is a
runtime panic. -/
theorem extractWeatherData_short_temps_out_of_range :
    extractWeatherData "Paris"
        (.parsed ⟨48.8566, 2.3522, "GMT", ⟨["2024-03-11T14:00"], []⟩⟩) =
      .error .indexOutOfRange ∧
      TransformErr.indexOutOfRange ≠ TransformErr.malformedResponse := by
  constructor
  · with_unfolding_all decide
  · decide

set_option maxRecDepth 4000 in
/-- C7 counterexample: a body whose time array holds one parseable
string followed by the unparseable "garbage", with an empty
temperature array, makes `extractWeatherData` abort on the
out-of-range access at index 0 — not with the time-parse error the
claim names for every body containing an unparseable string. -/
theorem extractWeatherData_unparseable_counterexample :
    parseTime2006 "garbage" = none ∧
      extractWeatherData "Paris"
          (.parsed ⟨48.8566, 2.3522, "GMT",
            ⟨["2024-03-11T14:00", "garbage"], []⟩⟩) =
        .error .indexOutOfRange ∧
      TransformErr.indexOutOfRange ≠ TransformErr.timeParseError := by
  refine ⟨by decide, by with_unfolding_all decide, by decide⟩

/-- C7 (amended): on a decoded body whose temperature array is at
least as long as its time array, if any time string fails to parse
under the layout, the whole operation fails with the time-parse
error — no partial output is produced. -/
theorem extractWeatherData_unparseable_fails (city : String) (w : WeatherResponse)
    (hlen : w.hourly.time.length ≤ w.hourly.temperature2m.length)
    (t0 : String) (hmem : t0 ∈ w.hourly.time) (hbad : parseTime2006 t0 = none) :
    extractWeatherData city (.parsed w) = .error .timeParseError := by
  have hb := buildForecasts_error_of_unparseable w.hourly.temperature2m
    w.hourly.time 0 (by omega) ⟨t0, hmem, hbad⟩
  simp [extractWeatherData, hb]

theorem extractWeatherData_unparseable_fails_witness :
    (["2024-03-11T14:00", "garbage"] : List String).length ≤
        ([(18.45 : ℚ), 7.05] : List ℚ).length ∧
      "garbage" ∈ (["2024-03-11T14:00", "garbage"] : List String) ∧
      parseTime2006 "garbage" = none ∧
      extractWeatherData "Paris"
          (.parsed ⟨48.8566, 2.3522, "GMT",
            ⟨["2024-03-11T14:00", "garbage"], [18.45, 7.05]⟩⟩) =
        .error .timeParseError :=
  ⟨by decide, by decide, by decide,
    extractWeatherData_unparseable_fails "Paris"
      ⟨48.8566, 2.3522, "GMT", ⟨["2024-03-11T14:00", "garbage"], [18.45, 7.05]⟩⟩
      (by decide) "garbage" (by decide) (by decide)⟩

end WeatherApp
